import Mathlib

/-
  Verification of the SV2 channel-factory core
  (roles-logic-sv2/src/channel_logic/channel_factory.rs).

  Shallow embedding conventions:
  * machine integers (u16 / u32 / u64) become Nat; no claim depends on wraparound
    except the one u8 cast, written explicitly as % 256;
  * 256-bit targets and hashes are Nat in big-endian-compare order, matching the
    total order of the Target type;
  * byte buffers (extranonces, coinbase parts, serialized merkle nodes) are List Nat;
  * HashMap becomes an association list with insert-or-replace semantics;
  * Rust panics (todo, unimplemented, unwrap of an external call) are modelled by
    an Option result whose none case is the panic;
  * fallible Rust functions returning Result become Except Error;
  * external collaborators that live outside the embedded source file
    (double-SHA256 block hashing, merkle-root reconstruction, hash-rate-to-target)
    are function parameters or abstract inputs of the operations that call them.
-/

namespace Sv2

/-- Association-list lookup, modelling HashMap::get for u32 keys. -/
def alistGet {α : Type} (k : Nat) : List (Nat × α) → Option α
  | [] => none
  | p :: rest => if p.fst = k then some p.snd else alistGet k rest

/-- Association-list insert-or-replace, modelling HashMap::insert for u32 keys. -/
def alistInsert {α : Type} (k : Nat) (v : α) : List (Nat × α) → List (Nat × α)
  | [] => [(k, v)]
  | p :: rest => if p.fst = k then (k, v) :: rest else p :: alistInsert k v rest

/-- Error variants of the roles-logic-sv2 crate used by the channel factory.
TargetError stands for the error value produced by the external helper
hash_rate_to_target when the target computation fails. -/
inductive Error
  | JobIsNotFutureButPrevHashNotPresent
  | ShareDoNotMatchAnyChannel
  | ShareDoNotMatchAnyJob
  | InvalidCoinbase
  | NoTemplateForId
  | TargetError
deriving DecidableEq

/-- SubmitSharesExtended message (mining subprotocol). -/
structure SubmitSharesExtended where
  channel_id : Nat
  sequence_number : Nat
  job_id : Nat
  nonce : Nat
  ntime : Nat
  version : Nat
  extranonce : List Nat
deriving DecidableEq

/-- SubmitSharesStandard message (mining subprotocol). -/
structure SubmitSharesStandard where
  channel_id : Nat
  sequence_number : Nat
  job_id : Nat
  nonce : Nat
  ntime : Nat
  version : Nat
deriving DecidableEq

/-- A share is either extended or standard; the standard variant carries its group id. -/
inductive Share
  | Extended (s : SubmitSharesExtended)
  | Standard (s : SubmitSharesStandard) (group_id : Nat)
deriving DecidableEq

/-- Share sequence number accessor, as in the source. -/
def Share.get_sequence_number : Share → Nat
  | .Extended s => s.sequence_number
  | .Standard s _ => s.sequence_number

/-- Share channel id accessor, as in the source. -/
def Share.get_channel_id : Share → Nat
  | .Extended s => s.channel_id
  | .Standard s _ => s.channel_id

/-- Share timestamp accessor, as in the source. -/
def Share.get_n_time : Share → Nat
  | .Extended s => s.ntime
  | .Standard s _ => s.ntime

/-- Share nonce accessor, as in the source. -/
def Share.get_nonce : Share → Nat
  | .Extended s => s.nonce
  | .Standard s _ => s.nonce

/-- Share job id accessor, as in the source. -/
def Share.get_job_id : Share → Nat
  | .Extended s => s.job_id
  | .Standard s _ => s.job_id

/-- Share version accessor, as in the source. -/
def Share.get_version : Share → Nat
  | .Extended s => s.version
  | .Standard s _ => s.version

/-- SubmitSharesError message; the error code is the protocol string. -/
structure SubmitSharesError where
  channel_id : Nat
  sequence_number : Nat
  error_code : String
deriving DecidableEq

/-- Modelled from the spec: the static difficulty-too-low protocol error code
(mining_sv2 constant, not part of the embedded source file). -/
def SubmitSharesError.difficulty_too_low_error_code : String := "difficulty-too-low"

/-- Modelled from the spec: the static invalid-channel protocol error code. -/
def SubmitSharesError.invalid_channel_error_code : String := "invalid-channel-id"

/-- Modelled from the spec: the static invalid-job-id protocol error code. -/
def SubmitSharesError.invalid_job_id_error_code : String := "invalid-job-id"

/-- Action to take on a newly received share (enum OnNewShare of the source). -/
inductive OnNewShare
  | SendErrorDownstream (e : SubmitSharesError)
  | SendSubmitShareUpstream (share : Share) (template_id : Option Nat)
  | RelaySubmitShareUpstream
  | ShareMeetBitcoinTarget (share : Share) (template_id : Option Nat)
      (coinbase : List Nat) (extranonce : List Nat)
  | ShareMeetDownstreamTarget
deriving DecidableEq

/-- OnNewShare::into_extended: converts a standard share into an extended share.
The ShareMeetDownstreamTarget arm is a todo macro in the source, modelled as none. -/
def OnNewShare.into_extended (self : OnNewShare) (extranonce : List Nat) (up_id : Nat) :
    Option OnNewShare :=
  match self with
  | .SendErrorDownstream e => some (.SendErrorDownstream e)
  | .SendSubmitShareUpstream share template_id =>
    match share with
    | .Extended _ => some (.SendSubmitShareUpstream share template_id)
    | .Standard s _ =>
      some (.SendSubmitShareUpstream
        (.Extended { channel_id := up_id, sequence_number := s.sequence_number,
                     job_id := s.job_id, nonce := s.nonce, ntime := s.ntime,
                     version := s.version, extranonce := extranonce }) template_id)
  | .RelaySubmitShareUpstream => some .RelaySubmitShareUpstream
  | .ShareMeetBitcoinTarget share t_id coinbase ext =>
    match share with
    | .Extended _ => some (.ShareMeetBitcoinTarget share t_id coinbase ext)
    | .Standard s _ =>
      some (.ShareMeetBitcoinTarget
        (.Extended { channel_id := up_id, sequence_number := s.sequence_number,
                     job_id := s.job_id, nonce := s.nonce, ntime := s.ntime,
                     version := s.version, extranonce := extranonce }) t_id coinbase ext)
  | .ShareMeetDownstreamTarget => none

/-- Staged prev-hash before it has a channel id. The prev_hash blob is the
256-bit value of the 32-byte field. -/
structure StagedPhash where
  job_id : Nat
  prev_hash : Nat
  min_ntime : Nat
  nbits : Nat
deriving DecidableEq

/-- SetNewPrevHash message of the mining subprotocol. -/
structure SetNewPrevHash where
  channel_id : Nat
  job_id : Nat
  prev_hash : Nat
  min_ntime : Nat
  nbits : Nat
deriving DecidableEq

/-- StagedPhash::into_set_p_hash. -/
def StagedPhash.into_set_p_hash (self : StagedPhash) (channel_id : Nat)
    (new_job_id : Option Nat) : SetNewPrevHash :=
  { channel_id := channel_id
    job_id := new_job_id.getD self.job_id
    prev_hash := self.prev_hash
    min_ntime := self.min_ntime
    nbits := self.nbits }

/-- NewExtendedMiningJob message. min_ntime is the Sv2Option field: none means the
job is a future job. Coinbase halves and the merkle path are byte/hash lists. -/
structure NewExtendedMiningJob where
  channel_id : Nat
  job_id : Nat
  min_ntime : Option Nat
  version : Nat
  version_rolling_allowed : Bool
  merkle_path : List Nat
  coinbaseTxPrefix : List Nat
  coinbaseTxSuffix : List Nat
deriving DecidableEq

/-- Modelled from the spec: is_future of mining_sv2, true when min_ntime is empty. -/
def NewExtendedMiningJob.is_future (j : NewExtendedMiningJob) : Bool :=
  j.min_ntime.isNone

/-- Modelled from the spec: set_future of mining_sv2 empties min_ntime. -/
def NewExtendedMiningJob.set_future (j : NewExtendedMiningJob) : NewExtendedMiningJob :=
  { j with min_ntime := none }

/-- Modelled from the spec: set_no_future of mining_sv2 stamps min_ntime. -/
def NewExtendedMiningJob.set_no_future (j : NewExtendedMiningJob) (now : Nat) :
    NewExtendedMiningJob :=
  { j with min_ntime := some now }

/-- OpenExtendedMiningChannelSuccess message; target is the 256-bit value. -/
structure OpenExtendedMiningChannelSuccess where
  request_id : Nat
  channel_id : Nat
  target : Nat
  extranonce_size : Nat
  extranoncePrefix : List Nat
deriving DecidableEq

/-- OpenMiningChannelError message. -/
structure OpenMiningChannelError where
  request_id : Nat
  error_code : String
deriving DecidableEq

/-- Modelled from the spec: the mining_sv2 constructor for the
unsupported-extranonce-size protocol error. -/
def OpenMiningChannelError.unsupported_extranonce_size (request_id : Nat) :
    OpenMiningChannelError :=
  { request_id := request_id, error_code := "unsupported-extranonce-size" }

/-- NewTemplate is consumed opaquely by the factory (stored in future_templates and
handed back to the job creator); only its identity fields are modelled. -/
structure NewTemplate where
  template_id : Nat
  future_template : Bool
deriving DecidableEq

/-- SetCustomMiningJob message (fields used by the factory). -/
structure SetCustomMiningJob where
  channel_id : Nat
  request_id : Nat
  token : Nat
  version : Nat
  prev_hash : Nat
  min_ntime : Nat
  nbits : Nat
  coinbase_tx_version : Nat
  coinbasePrefix : List Nat
  coinbase_tx_input_n_sequence : Nat
  coinbase_tx_value_remaining : Nat
  coinbase_tx_outputs : List Nat
  coinbase_tx_locktime : Nat
  merkle_path : List Nat
  future_job : Bool
deriving DecidableEq

/-- SetCustomMiningJobSuccess message. -/
structure SetCustomMiningJobSuccess where
  channel_id : Nat
  request_id : Nat
  job_id : Nat
deriving DecidableEq

/-- The Mining message union (parsers_sv2), restricted to the variants the
factory emits from the embedded functions. -/
inductive Mining
  | OpenExtendedMiningChannelSuccess (m : OpenExtendedMiningChannelSuccess)
  | OpenMiningChannelError (m : OpenMiningChannelError)
  | NewExtendedMiningJob (m : NewExtendedMiningJob)
  | SetNewPrevHash (m : SetNewPrevHash)
deriving DecidableEq

/-- True exactly on SetNewPrevHash messages. -/
def Mining.isSetNewPrevHash : Mining → Bool
  | .SetNewPrevHash _ => true
  | _ => false

/-- Modelled from the spec: the ExtendedExtranonce allocator splits the extranonce
into range0 (upstream prefix), range1 (per-channel prefix) and range2 (miner
rolling space); the counter drives the unique next range1 prefix. -/
structure ExtendedExtranonce where
  range0_len : Nat
  range1_len : Nat
  range2_len : Nat
  counter : Nat
deriving DecidableEq

/-- Length of range0, the upstream-owned prefix. -/
def ExtendedExtranonce.get_range0_len (e : ExtendedExtranonce) : Nat := e.range0_len

/-- Length of range2, the miner rolling space. -/
def ExtendedExtranonce.get_range2_len (e : ExtendedExtranonce) : Nat := e.range2_len

/-- Total extranonce length. -/
def ExtendedExtranonce.get_len (e : ExtendedExtranonce) : Nat :=
  e.range0_len + e.range1_len + e.range2_len

/-- Big-endian byte encoding of v padded or truncated to n bytes. -/
def natToBytes : Nat → Nat → List Nat
  | 0, _ => []
  | n + 1, v => natToBytes n (v / 256) ++ [v % 256]

/-- Modelled from the spec: next_prefix_extended yields the next unique per-channel
prefix of length range0 + range1; called by the factory with its own range2 length,
for which the allocation always succeeds. -/
def ExtendedExtranonce.next_prefix_extended (e : ExtendedExtranonce) (_required : Nat) :
    List Nat × ExtendedExtranonce :=
  (natToBytes (e.range0_len + e.range1_len) e.counter, { e with counter := e.counter + 1 })

/-- ExtendedChannelKind: proxies carry an upstream target, a pool carries none. -/
inductive ExtendedChannelKind
  | Proxy (upstream_target : Nat)
  | ProxyJd (upstream_target : Nat)
  | Pool
deriving DecidableEq

/-- The upstream target check_target compares against: zero for a pool kind. -/
def ExtendedChannelKind.upstream_target_value : ExtendedChannelKind → Nat
  | .Proxy t => t
  | .ProxyJd t => t
  | .Pool => 0

/-- The shared channel-factory state. The ids field models the GroupId allocator
counter (unique channel ids under group 0); share_per_min is only ever passed to
the external hash_rate_to_target helper, whose outcome is an input of
new_extended_channel. -/
structure ChannelFactory where
  ids : Nat
  extended_channels : List (Nat × OpenExtendedMiningChannelSuccess)
  extranonces : ExtendedExtranonce
  share_per_min : Nat
  future_jobs : List (NewExtendedMiningJob × List Nat)
  last_prev_hash : Option (StagedPhash × List Nat)
  last_prev_hash_ : Option Nat
  last_valid_job : Option (NewExtendedMiningJob × List Nat)
  kind : ExtendedChannelKind
  job_ids : Nat
  channel_to_group_id : List (Nat × Nat)
  future_templates : List (Nat × NewTemplate)
deriving DecidableEq

/-- Modelled from the spec: u256_to_block_hash reinterprets the 32-byte prev-hash
blob as a block hash; value-preserving on the numeric encoding. -/
def u256_to_block_hash (u : Nat) : Nat := u

/-- ChannelFactory::new_extended_channel. target_res is the outcome of the external
hash_rate_to_target(hash_rate, share_per_min) call; everything else follows the
source line by line, including that the channel id is allocated and registered in
channel_to_group_id before the target computation can fail. -/
def ChannelFactory.new_extended_channel (self : ChannelFactory) (request_id : Nat)
    (target_res : Except Error Nat) (min_extranonce_size : Nat) :
    Except Error (List Mining) × ChannelFactory :=
  let max_extranonce_size := self.extranonces.get_range2_len
  if min_extranonce_size ≤ max_extranonce_size then
    let channel_id := self.ids
    let st0 : ChannelFactory :=
      { self with ids := self.ids + 1
                  channel_to_group_id := alistInsert channel_id 0 self.channel_to_group_id }
    match target_res with
    | .error e => (.error e, st0)
    | .ok target =>
      let pr := st0.extranonces.next_prefix_extended max_extranonce_size
      let st1 : ChannelFactory := { st0 with extranonces := pr.snd }
      let success : OpenExtendedMiningChannelSuccess :=
        { request_id := request_id, channel_id := channel_id, target := target,
          extranonce_size := max_extranonce_size, extranoncePrefix := pr.fst }
      let st2 : ChannelFactory :=
        { st1 with extended_channels := alistInsert channel_id success st1.extended_channels }
      let base := [Mining.OpenExtendedMiningChannelSuccess success]
      let middle : List Mining :=
        match st2.last_valid_job with
        | some jp =>
          let job := jp.fst.set_future
          let j_id := job.job_id
          Mining.NewExtendedMiningJob job ::
            (match st2.last_prev_hash with
             | some php =>
               [Mining.SetNewPrevHash
                 { php.fst.into_set_p_hash channel_id none with job_id := j_id }]
             | none => [])
        | none =>
          match st2.last_prev_hash with
          | some php => [Mining.SetNewPrevHash (php.fst.into_set_p_hash channel_id none)]
          | none => []
      let futures := st2.future_jobs.map (fun jp => Mining.NewExtendedMiningJob jp.fst)
      (.ok (base ++ middle ++ futures), st2)
  else
    (.ok [Mining.OpenMiningChannelError
            (OpenMiningChannelError.unsupported_extranonce_size request_id)], self)

/-- The pop-loop of ChannelFactory::on_new_prev_hash, driven over the reversed
future-jobs list (Vec::pop takes from the back). On a match the job is promoted
with its min_ntime stamped; on a miss last_valid_job is set to none and the loop
continues; an empty list leaves the incoming last_valid_job untouched. -/
def on_new_prev_hash_loop (job_id now : Nat) :
    List (NewExtendedMiningJob × List Nat) → Option (NewExtendedMiningJob × List Nat) →
    Option (NewExtendedMiningJob × List Nat)
  | [], lvj => lvj
  | jp :: rest, _ =>
    if jp.fst.job_id = job_id then some (jp.fst.set_no_future now, jp.snd)
    else on_new_prev_hash_loop job_id now rest none

/-- ChannelFactory::on_new_prev_hash; now is the wall-clock seconds value read
inside the loop. The source method is total (always returns Ok). -/
def ChannelFactory.on_new_prev_hash (self : ChannelFactory) (m : StagedPhash) (now : Nat) :
    ChannelFactory :=
  { self with
    last_valid_job :=
      on_new_prev_hash_loop m.job_id now self.future_jobs.reverse self.last_valid_job
    future_jobs := []
    last_prev_hash_ := some (u256_to_block_hash m.prev_hash)
    last_prev_hash := some (m, []) }

/-- ChannelFactory::prepare_jobs_for_downstream_on_new_extended: fan-out of the job
to every live channel, keyed by channel id. -/
def ChannelFactory.prepare_jobs_for_downstream_on_new_extended (self : ChannelFactory)
    (m : NewExtendedMiningJob) : List (Nat × Mining) :=
  self.extended_channels.foldl
    (fun result p =>
      alistInsert p.fst (Mining.NewExtendedMiningJob { m with channel_id := p.fst }) result)
    []

/-- ChannelFactory::on_new_extended_mining_job. -/
def ChannelFactory.on_new_extended_mining_job (self : ChannelFactory)
    (m : NewExtendedMiningJob) :
    Except Error (List (Nat × Mining)) × ChannelFactory :=
  match m.is_future, self.last_prev_hash with
  | true, _ =>
    let result := self.prepare_jobs_for_downstream_on_new_extended m
    (.ok result, { self with future_jobs := self.future_jobs ++ [(m, [])] })
  | false, some _ =>
    let result := self.prepare_jobs_for_downstream_on_new_extended m
    let st : ChannelFactory := { self with last_valid_job := some (m, []) }
    match st.last_prev_hash with
    | some _ => (.ok result, st)
    | none => (.error .JobIsNotFutureButPrevHashNotPresent, st)
  | false, none => (.error .JobIsNotFutureButPrevHashNotPresent, self)

/-- ChannelFactory::get_channel_specific_mining_info. The outer Option models the
unimplemented macro on the Standard arm (none = panic); the inner Option is the
Rust Option return (none = unknown channel). -/
def ChannelFactory.get_channel_specific_mining_info (self : ChannelFactory) (m : Share) :
    Option (Option (Nat × List Nat)) :=
  match m with
  | .Extended share =>
    some
      (match alistGet share.channel_id self.extended_channels with
       | none => none
       | some channel =>
         some (channel.target, channel.extranoncePrefix ++ share.extranonce))
  | .Standard _ _ => none

/-- The assembled bitcoin block header, input of the external double-SHA256. -/
structure Header where
  version : Nat
  prev_blockhash : Nat
  merkle_root : List Nat
  time : Nat
  bits : Nat
  nonce : Nat
deriving DecidableEq

/-- ChannelFactory::check_target. merkle_root_from_path and block_hash stand for the
external merkle-root reconstruction and double-SHA256 header hash (the latter
already interpreted as a 256-bit integer in target-compare order). The outer
Option models divergence (the unimplemented Standard arm of
get_channel_specific_mining_info); the returned factory is the post-call state. -/
def ChannelFactory.check_target (self : ChannelFactory)
    (merkle_root_from_path : List Nat → List Nat → List Nat → List Nat → Option (List Nat))
    (block_hash : Header → Nat)
    (m : Share) (bitcoin_target : Nat) (template_id : Option Nat) (up_id : Nat)
    (merkle_path : List Nat) (coinbaseTxPrefix coinbaseTxSuffix : List Nat)
    (prev_blockhash : Nat) (bits : Nat) :
    Option (Except Error OnNewShare × ChannelFactory) :=
  let upstream_target := self.kind.upstream_target_value
  match self.get_channel_specific_mining_info m with
  | none => none
  | some none => some (.error .ShareDoNotMatchAnyChannel, self)
  | some (some di) =>
    let downstream_target := di.fst
    let extranonce := di.snd
    let extranonce_1_len := self.extranonces.get_range0_len
    let extranonce_2 := extranonce.drop extranonce_1_len
    let m2 : Share :=
      match m with
      | .Extended s => .Extended { s with extranonce := extranonce_2 }
      | .Standard s g => .Standard s g
    match merkle_root_from_path coinbaseTxPrefix coinbaseTxSuffix extranonce merkle_path with
    | none => some (.error .InvalidCoinbase, self)
    | some merkle_root =>
      let header : Header :=
        { version := m2.get_version, prev_blockhash := prev_blockhash,
          merkle_root := merkle_root, time := m2.get_n_time, bits := bits,
          nonce := m2.get_nonce }
      let hash := block_hash header
      if hash ≤ bitcoin_target then
        let coinbase := coinbaseTxPrefix ++ extranonce ++ coinbaseTxSuffix
        match self.kind with
        | .Proxy _ | .ProxyJd _ =>
          let upstream_extranonce_space := self.extranonces.get_range0_len
          let extranonce_up := extranonce.drop upstream_extranonce_space
          match (OnNewShare.ShareMeetBitcoinTarget m2 template_id coinbase
                   extranonce).into_extended extranonce_up up_id with
          | some res => some (.ok res, self)
          | none => none
        | .Pool =>
          some (.ok (.ShareMeetBitcoinTarget m2 template_id coinbase extranonce), self)
      else if hash ≤ upstream_target then
        match self.kind with
        | .Proxy _ | .ProxyJd _ =>
          let upstream_extranonce_space := self.extranonces.get_range0_len
          let extranonce_up := extranonce.drop upstream_extranonce_space
          match (OnNewShare.SendSubmitShareUpstream m2 template_id).into_extended
                  extranonce_up up_id with
          | some res => some (.ok res, self)
          | none => none
        | .Pool => some (.ok (.SendSubmitShareUpstream m2 template_id), self)
      else if hash ≤ downstream_target then
        some (.ok .ShareMeetDownstreamTarget, self)
      else
        some (.ok (.SendErrorDownstream
          { channel_id := m2.get_channel_id,
            sequence_number := m2.get_sequence_number,
            error_code := SubmitSharesError.difficulty_too_low_error_code }), self)

/-- ChannelFactory::update_target_for_channel. -/
def ChannelFactory.update_target_for_channel (self : ChannelFactory) (channel_id : Nat)
    (new_target : Nat) : Option Bool × ChannelFactory :=
  match alistGet channel_id self.extended_channels with
  | none => (none, self)
  | some channel =>
    (some true,
     { self with extended_channels :=
         alistInsert channel_id { channel with target := new_target } self.extended_channels })

/-- Modelled from the spec: the JobsCreators collaborator, consumed by the factory
only through get_template_id_from_job and last_target; modelled as those two
responses. -/
structure JobsCreators where
  get_template_id_from_job : Nat → Option Nat
  last_target : Nat

/-- PoolChannelFactory: the shared core plus the job creator, the pool coinbase
outputs (opaque serialized bytes) and the registry of negotiated custom jobs. -/
structure PoolChannelFactory where
  inner : ChannelFactory
  job_creator : JobsCreators
  pool_coinbase_outputs : List Nat
  negotiated_jobs : List (Nat × SetCustomMiningJob)

/-- PoolChannelFactory::on_submit_shares_standard. -/
def PoolChannelFactory.on_submit_shares_standard (self : PoolChannelFactory)
    (merkle_root_from_path : List Nat → List Nat → List Nat → List Nat → Option (List Nat))
    (block_hash : Header → Nat)
    (m : SubmitSharesStandard) :
    Option (Except Error OnNewShare × PoolChannelFactory) :=
  match alistGet m.channel_id self.inner.channel_to_group_id with
  | some g_id =>
    match self.inner.last_valid_job with
    | none => some (.error .ShareDoNotMatchAnyJob, self)
    | some jp =>
      let referenced_job := jp.fst
      let merkle_path := referenced_job.merkle_path
      match self.job_creator.get_template_id_from_job referenced_job.job_id with
      | none => some (.error .NoTemplateForId, self)
      | some template_id =>
        let target := self.job_creator.last_target
        match self.inner.last_prev_hash_ with
        | none => some (.error .ShareDoNotMatchAnyJob, self)
        | some prev_blockhash =>
          match self.inner.last_prev_hash with
          | none => some (.error .ShareDoNotMatchAnyJob, self)
          | some php =>
            let bits := php.fst.nbits
            (self.inner.check_target merkle_root_from_path block_hash
                (.Standard m g_id) target (some template_id) 0 merkle_path
                referenced_job.coinbaseTxPrefix referenced_job.coinbaseTxSuffix
                prev_blockhash bits).map
              (fun p => (p.fst, { self with inner := p.snd }))
  | none =>
    some (.ok (.SendErrorDownstream
      { channel_id := m.channel_id, sequence_number := m.sequence_number,
        error_code := SubmitSharesError.invalid_channel_error_code }), self)

/-- PoolChannelFactory::on_submit_shares_extended. extended_job_from_custom_job is
the external job-creator helper (none = the unwrap panic in the source); the
extranonce length passed to it carries the u8 cast of the source. -/
def PoolChannelFactory.on_submit_shares_extended (self : PoolChannelFactory)
    (extended_job_from_custom_job : SetCustomMiningJob → Nat → Option NewExtendedMiningJob)
    (merkle_root_from_path : List Nat → List Nat → List Nat → List Nat → Option (List Nat))
    (block_hash : Header → Nat)
    (m : SubmitSharesExtended) :
    Option (Except Error OnNewShare × PoolChannelFactory) :=
  let target := self.job_creator.last_target
  match alistGet m.channel_id self.negotiated_jobs with
  | some referenced_job =>
    let merkle_path := referenced_job.merkle_path
    match extended_job_from_custom_job referenced_job (self.inner.extranonces.get_len % 256) with
    | none => none
    | some extended_job =>
      let prev_blockhash := u256_to_block_hash referenced_job.prev_hash
      let bits := referenced_job.nbits
      (self.inner.check_target merkle_root_from_path block_hash
          (.Extended m) target none 0 merkle_path
          extended_job.coinbaseTxPrefix extended_job.coinbaseTxSuffix
          prev_blockhash bits).map
        (fun p => (p.fst, { self with inner := p.snd }))
  | none =>
    match self.inner.last_valid_job with
    | none => some (.error .ShareDoNotMatchAnyJob, self)
    | some jp =>
      let referenced_job := jp.fst
      let merkle_path := referenced_job.merkle_path
      match self.job_creator.get_template_id_from_job referenced_job.job_id with
      | none => some (.error .NoTemplateForId, self)
      | some template_id =>
        match self.inner.last_prev_hash_ with
        | none => some (.error .ShareDoNotMatchAnyJob, self)
        | some prev_blockhash =>
          match self.inner.last_prev_hash with
          | none => some (.error .ShareDoNotMatchAnyJob, self)
          | some php =>
            let bits := php.fst.nbits
            (self.inner.check_target merkle_root_from_path block_hash
                (.Extended m) target (some template_id) 0 merkle_path
                referenced_job.coinbaseTxPrefix referenced_job.coinbaseTxSuffix
                prev_blockhash bits).map
              (fun p => (p.fst, { self with inner := p.snd }))

/-- PoolChannelFactory::check_set_custom_mining_job, a stub that always accepts. -/
def PoolChannelFactory.check_set_custom_mining_job (_self : PoolChannelFactory)
    (_j : SetCustomMiningJob) : Bool := true

/-- PoolChannelFactory::on_new_set_custom_mining_job. The rejection arm is a todo
macro in the source, modelled as none; job_ids models the Id counter whose next
call increments and returns the new value. -/
def PoolChannelFactory.on_new_set_custom_mining_job (self : PoolChannelFactory)
    (j : SetCustomMiningJob) : Option (SetCustomMiningJobSuccess × PoolChannelFactory) :=
  if self.check_set_custom_mining_job j then
    some
      ({ channel_id := j.channel_id, request_id := j.request_id,
         job_id := self.inner.job_ids + 1 },
       { self with
         negotiated_jobs := alistInsert j.channel_id j self.negotiated_jobs,
         inner := { self.inner with job_ids := self.inner.job_ids + 1 } })
  else none

/-- ProxyExtendedChannelFactory: the shared core plus an optional job creator,
optional pool coinbase outputs and the upstream-assigned channel id. -/
structure ProxyExtendedChannelFactory where
  inner : ChannelFactory
  job_creator : Option JobsCreators
  pool_coinbase_outputs : Option (List Nat)
  extended_channel_id : Nat

/-- ProxyExtendedChannelFactory::on_submit_shares_standard. Both the merkle-path
fetch and the referenced-job fetch precede the group-id gate in the source, so a
missing last_valid_job errors out even for an unknown channel. -/
def ProxyExtendedChannelFactory.on_submit_shares_standard
    (self : ProxyExtendedChannelFactory)
    (merkle_root_from_path : List Nat → List Nat → List Nat → List Nat → Option (List Nat))
    (block_hash : Header → Nat)
    (m : SubmitSharesStandard) :
    Option (Except Error OnNewShare × ProxyExtendedChannelFactory) :=
  match self.inner.last_valid_job with
  | none => some (.error .ShareDoNotMatchAnyJob, self)
  | some jp =>
    let referenced_job := jp.fst
    let merkle_path := referenced_job.merkle_path
    match alistGet m.channel_id self.inner.channel_to_group_id with
    | some g_id =>
      match self.job_creator with
      | some job_creator =>
        match job_creator.get_template_id_from_job referenced_job.job_id with
        | none => some (.error .NoTemplateForId, self)
        | some template_id =>
          let bitcoin_target := job_creator.last_target
          match self.inner.last_prev_hash_ with
          | none => some (.error .ShareDoNotMatchAnyJob, self)
          | some prev_blockhash =>
            match self.inner.last_prev_hash with
            | none => some (.error .ShareDoNotMatchAnyJob, self)
            | some php =>
              let bits := php.fst.nbits
              (self.inner.check_target merkle_root_from_path block_hash
                  (.Standard m g_id) bitcoin_target (some template_id)
                  self.extended_channel_id merkle_path
                  referenced_job.coinbaseTxPrefix referenced_job.coinbaseTxSuffix
                  prev_blockhash bits).map
                (fun p => (p.fst, { self with inner := p.snd }))
      | none =>
        let bitcoin_target := 0
        match self.inner.last_prev_hash_ with
        | none => some (.error .ShareDoNotMatchAnyJob, self)
        | some prev_blockhash =>
          match self.inner.last_prev_hash with
          | none => some (.error .ShareDoNotMatchAnyJob, self)
          | some php =>
            let bits := php.fst.nbits
            (self.inner.check_target merkle_root_from_path block_hash
                (.Standard m g_id) bitcoin_target none
                self.extended_channel_id merkle_path
                referenced_job.coinbaseTxPrefix referenced_job.coinbaseTxSuffix
                prev_blockhash bits).map
              (fun p => (p.fst, { self with inner := p.snd }))
    | none =>
      some (.ok (.SendErrorDownstream
        { channel_id := m.channel_id, sequence_number := m.sequence_number,
          error_code := SubmitSharesError.invalid_channel_error_code }), self)

/-- Rank of a classification in the order Bitcoin, Upstream, Downstream, Error;
RelaySubmitShareUpstream is not produced by check_target and shares the upstream
rank. -/
def OnNewShare.classRank : OnNewShare → Nat
  | .ShareMeetBitcoinTarget _ _ _ _ => 0
  | .SendSubmitShareUpstream _ _ => 1
  | .RelaySubmitShareUpstream => 1
  | .ShareMeetDownstreamTarget => 2
  | .SendErrorDownstream _ => 3

/-- Rank of the target band a hash falls into, matching the branch order of
check_target. -/
def targetRank (h bt ut dt : Nat) : Nat :=
  if h ≤ bt then 0 else if h ≤ ut then 1 else if h ≤ dt then 2 else 3

/-- The block header check_target assembles for an extended share and a
reconstructed merkle root. -/
def shareHeader (s : SubmitSharesExtended) (root : List Nat) (pb bits : Nat) : Header :=
  { version := s.version, prev_blockhash := pb, merkle_root := root,
    time := s.ntime, bits := bits, nonce := s.nonce }

/-- The share as emitted by check_target: its extranonce field replaced by the full
channel extranonce with the upstream-owned range0 prefix stripped. -/
def strippedShare (self : ChannelFactory) (s : SubmitSharesExtended)
    (channel : OpenExtendedMiningChannelSuccess) : Share :=
  .Extended { s with extranonce :=
    (channel.extranoncePrefix ++ s.extranonce).drop self.extranonces.get_range0_len }

/-- Lookup after inserting the same key returns the inserted value. -/
theorem alistGet_insert_self {α : Type} (k : Nat) (v : α) (l : List (Nat × α)) :
    alistGet k (alistInsert k v l) = some v := by
  induction l with
  | nil => simp [alistInsert, alistGet]
  | cons p rest ih =>
    by_cases h : p.fst = k <;> simp [alistInsert, alistGet, h, ih]

/-- Lookup after inserting a different key is unchanged. -/
theorem alistGet_insert_ne {α : Type} (k j : Nat) (v : α) (l : List (Nat × α))
    (h : j ≠ k) : alistGet k (alistInsert j v l) = alistGet k l := by
  induction l with
  | nil => simp [alistInsert, alistGet, h]
  | cons p rest ih =>
    by_cases hp : p.fst = j
    · simp [alistInsert, alistGet, hp, h]
    · simp [alistInsert, alistGet, hp, ih]

/-- Lookup in the fan-out fold: every live channel id is mapped to the job
rewritten to that id, and other keys fall through to the accumulator. -/
theorem fanout_get (cs : List (Nat × OpenExtendedMiningChannelSuccess))
    (m : NewExtendedMiningJob) (acc : List (Nat × Mining)) (id : Nat) :
    alistGet id
      (cs.foldl
        (fun result p =>
          alistInsert p.fst (Mining.NewExtendedMiningJob { m with channel_id := p.fst })
            result)
        acc) =
    if id ∈ cs.map Prod.fst then some (Mining.NewExtendedMiningJob { m with channel_id := id })
    else alistGet id acc := by
  induction cs generalizing acc with
  | nil => simp
  | cons p rest ih =>
    simp only [List.foldl_cons, List.map_cons, List.mem_cons]
    rw [ih]
    by_cases hmem : id ∈ rest.map Prod.fst
    · simp [hmem]
    · by_cases hp : p.fst = id
      · subst hp
        simp [hmem, alistGet_insert_self]
      · have hne : id ≠ p.fst := fun h => hp h.symm
        simp [hmem, hne, alistGet_insert_ne _ _ _ _ hp]

/-- One unfolding step of the promotion loop on a nonempty list. -/
theorem on_new_prev_hash_loop_cons (job_id now : Nat)
    (jp : NewExtendedMiningJob × List Nat) (rest : List (NewExtendedMiningJob × List Nat))
    (lvj : Option (NewExtendedMiningJob × List Nat)) :
    on_new_prev_hash_loop job_id now (jp :: rest) lvj =
      if jp.fst.job_id = job_id then some (jp.fst.set_no_future now, jp.snd)
      else on_new_prev_hash_loop job_id now rest none := rfl

/-- The promotion loop on a nonempty list either clears the slot or promotes a
job whose id matches, stamped with the given time. -/
theorem on_new_prev_hash_loop_ne_nil (job_id now : Nat)
    (l : List (NewExtendedMiningJob × List Nat))
    (lvj : Option (NewExtendedMiningJob × List Nat)) (h : l ≠ []) :
    on_new_prev_hash_loop job_id now l lvj = none ∨
    ∃ (j : NewExtendedMiningJob) (tl : List Nat),
      on_new_prev_hash_loop job_id now l lvj = some (j.set_no_future now, tl) ∧
      j.job_id = job_id := by
  induction l generalizing lvj with
  | nil => exact absurd rfl h
  | cons jp rest ih =>
    by_cases hj : jp.fst.job_id = job_id
    · exact Or.inr ⟨jp.fst, jp.snd, by rw [on_new_prev_hash_loop_cons, if_pos hj], hj⟩
    · rw [on_new_prev_hash_loop_cons, if_neg hj]
      cases rest with
      | nil => exact Or.inl rfl
      | cons a b => exact ih none (List.cons_ne_nil a b)

/-- Closed form of check_target on an extended share whose channel is known: the
channel info resolves, the share is stripped, and the result is the four-way
classification of the header hash against the bitcoin, upstream and downstream
targets. -/
theorem check_target_extended_eq (self : ChannelFactory)
    (mrfp : List Nat → List Nat → List Nat → List Nat → Option (List Nat))
    (hh : Header → Nat) (s : SubmitSharesExtended)
    (bt : Nat) (tid : Option Nat) (up_id : Nat) (mp cp cs : List Nat) (pb bits : Nat)
    (channel : OpenExtendedMiningChannelSuccess)
    (hch : alistGet s.channel_id self.extended_channels = some channel) :
    self.check_target mrfp hh (.Extended s) bt tid up_id mp cp cs pb bits =
      match mrfp cp cs (channel.extranoncePrefix ++ s.extranonce) mp with
      | none => some (.error .InvalidCoinbase, self)
      | some root =>
        if hh (shareHeader s root pb bits) ≤ bt then
          some (.ok (.ShareMeetBitcoinTarget (strippedShare self s channel) tid
            (cp ++ (channel.extranoncePrefix ++ s.extranonce) ++ cs)
            (channel.extranoncePrefix ++ s.extranonce)), self)
        else if hh (shareHeader s root pb bits) ≤ self.kind.upstream_target_value then
          some (.ok (.SendSubmitShareUpstream (strippedShare self s channel) tid), self)
        else if hh (shareHeader s root pb bits) ≤ channel.target then
          some (.ok .ShareMeetDownstreamTarget, self)
        else
          some (.ok (.SendErrorDownstream
            { channel_id := s.channel_id, sequence_number := s.sequence_number,
              error_code := SubmitSharesError.difficulty_too_low_error_code }), self) := by
  have hg : self.get_channel_specific_mining_info (.Extended s) =
      some (some (channel.target, channel.extranoncePrefix ++ s.extranonce)) := by
    simp [ChannelFactory.get_channel_specific_mining_info, hch]
  unfold ChannelFactory.check_target
  rw [hg]
  dsimp only [Share.get_version, Share.get_n_time, Share.get_nonce,
    Share.get_channel_id, Share.get_sequence_number]
  cases hm : mrfp cp cs (channel.extranoncePrefix ++ s.extranonce) mp with
  | none => simp [hm]
  | some root =>
    simp only [hm]
    cases hk : self.kind <;>
      simp [hk, OnNewShare.into_extended, shareHeader, strippedShare,
        ExtendedChannelKind.upstream_target_value]

/-- check_target diverges on every standard share: the channel-info resolution
hits the unimplemented arm before anything else can be returned. -/
theorem check_target_standard_eq (self : ChannelFactory)
    (mrfp : List Nat → List Nat → List Nat → List Nat → Option (List Nat))
    (hh : Header → Nat) (s : SubmitSharesStandard) (g : Nat)
    (bt : Nat) (tid : Option Nat) (up_id : Nat) (mp cp cs : List Nat) (pb bits : Nat) :
    self.check_target mrfp hh (.Standard s g) bt tid up_id mp cp cs pb bits = none := rfl

/-- check_target on an extended share for an unknown channel fails with
ShareDoNotMatchAnyChannel. -/
theorem check_target_no_channel (self : ChannelFactory)
    (mrfp : List Nat → List Nat → List Nat → List Nat → Option (List Nat))
    (hh : Header → Nat) (s : SubmitSharesExtended)
    (bt : Nat) (tid : Option Nat) (up_id : Nat) (mp cp cs : List Nat) (pb bits : Nat)
    (hch : alistGet s.channel_id self.extended_channels = none) :
    self.check_target mrfp hh (.Extended s) bt tid up_id mp cp cs pb bits =
      some (.error .ShareDoNotMatchAnyChannel, self) := by
  have hg : self.get_channel_specific_mining_info (.Extended s) = some none := by
    simp [ChannelFactory.get_channel_specific_mining_info, hch]
  unfold ChannelFactory.check_target
  rw [hg]

/-- Fixture: a mining job carrying channel id 9, used as the stored valid job. -/
def jobA : NewExtendedMiningJob :=
  { channel_id := 9, job_id := 1, min_ntime := some 10, version := 2,
    version_rolling_allowed := false, merkle_path := [3],
    coinbaseTxPrefix := [1], coinbaseTxSuffix := [2] }

/-- Fixture: a future job with job id 4. -/
def jobF : NewExtendedMiningJob :=
  { channel_id := 9, job_id := 4, min_ntime := none, version := 2,
    version_rolling_allowed := false, merkle_path := [3],
    coinbaseTxPrefix := [1], coinbaseTxSuffix := [2] }

/-- Fixture: a staged prev-hash naming job id 4. -/
def phA : StagedPhash := { job_id := 4, prev_hash := 11, min_ntime := 12, nbits := 13 }

/-- Fixture: an open channel record with id 1 and downstream target 100. -/
def chanA : OpenExtendedMiningChannelSuccess :=
  { request_id := 0, channel_id := 1, target := 100, extranonce_size := 2,
    extranoncePrefix := [7] }

/-- Fixture: a pool-kind factory with one open channel, one future job, a stored
valid job and a stored prev-hash. -/
def cfA : ChannelFactory :=
  { ids := 3, extended_channels := [(1, chanA)],
    extranonces := { range0_len := 1, range1_len := 0, range2_len := 2, counter := 0 },
    share_per_min := 1, future_jobs := [(jobF, [])], last_prev_hash := some (phA, []),
    last_prev_hash_ := some 11, last_valid_job := some (jobA, []), kind := .Pool,
    job_ids := 0, channel_to_group_id := [(1, 0)], future_templates := [] }

/-- Fixture: the same factory with proxy kind and upstream target 60. -/
def cfProxy : ChannelFactory := { cfA with kind := .Proxy 60 }

/-- Fixture: the same factory with an empty future-jobs queue. -/
def cfEmptyFJ : ChannelFactory := { cfA with future_jobs := [] }

/-- Fixture: an extended share on channel 1. -/
def sA : SubmitSharesExtended :=
  { channel_id := 1, sequence_number := 9, job_id := 3, nonce := 4, ntime := 5,
    version := 6, extranonce := [8] }

/-- Fixture: a merkle-root reconstruction that always succeeds with root [5]. -/
def mrfpA (_cp _cs _ext _mp : List Nat) : Option (List Nat) := some [5]

/-- Fixture: a header hash of constant value 50. -/
def hh50 (_h : Header) : Nat := 50

/-- C8: into_extended is the identity on SendSubmitShareUpstream and
ShareMeetBitcoinTarget results whose share is already Extended and on
SendErrorDownstream and RelaySubmitShareUpstream results; a Standard share is
replaced by an Extended share with channel_id = up_id, the given extranonce
bytes, and sequence_number, job_id, nonce, ntime and version preserved verbatim. -/
theorem into_extended_spec :
    (∀ (se : SubmitSharesExtended) (t : Option Nat) (ext : List Nat) (up : Nat),
      (OnNewShare.SendSubmitShareUpstream (.Extended se) t).into_extended ext up =
        some (.SendSubmitShareUpstream (.Extended se) t)) ∧
    (∀ (se : SubmitSharesExtended) (t : Option Nat) (c x ext : List Nat) (up : Nat),
      (OnNewShare.ShareMeetBitcoinTarget (.Extended se) t c x).into_extended ext up =
        some (.ShareMeetBitcoinTarget (.Extended se) t c x)) ∧
    (∀ (e : SubmitSharesError) (ext : List Nat) (up : Nat),
      (OnNewShare.SendErrorDownstream e).into_extended ext up =
        some (.SendErrorDownstream e)) ∧
    (∀ (ext : List Nat) (up : Nat),
      OnNewShare.RelaySubmitShareUpstream.into_extended ext up =
        some .RelaySubmitShareUpstream) ∧
    (∀ (ss : SubmitSharesStandard) (g : Nat) (t : Option Nat) (ext : List Nat) (up : Nat),
      (OnNewShare.SendSubmitShareUpstream (.Standard ss g) t).into_extended ext up =
        some (.SendSubmitShareUpstream
          (.Extended { channel_id := up, sequence_number := ss.sequence_number,
                       job_id := ss.job_id, nonce := ss.nonce, ntime := ss.ntime,
                       version := ss.version, extranonce := ext }) t)) ∧
    (∀ (ss : SubmitSharesStandard) (g : Nat) (t : Option Nat) (c x ext : List Nat)
       (up : Nat),
      (OnNewShare.ShareMeetBitcoinTarget (.Standard ss g) t c x).into_extended ext up =
        some (.ShareMeetBitcoinTarget
          (.Extended { channel_id := up, sequence_number := ss.sequence_number,
                       job_id := ss.job_id, nonce := ss.nonce, ntime := ss.ntime,
                       version := ss.version, extranonce := ext }) t c x)) :=
  ⟨fun _ _ _ _ => rfl, fun _ _ _ _ _ _ => rfl, fun _ _ _ => rfl, fun _ _ => rfl,
   fun _ _ _ _ _ => rfl, fun _ _ _ _ _ _ _ => rfl⟩

/-- C9: check_target never modifies the factory state: on every non-diverging run
the returned factory (all fields: future_jobs, last_valid_job, last_prev_hash,
last_prev_hash_, extended_channels, channel_to_group_id, future_templates and the
rest) equals the input factory. The share itself is a by-value input, so the
in-place extranonce rewrite of the source is visible only in the returned share. -/
theorem check_target_preserves_state (self : ChannelFactory)
    (mrfp : List Nat → List Nat → List Nat → List Nat → Option (List Nat))
    (hh : Header → Nat) (m : Share)
    (bt : Nat) (tid : Option Nat) (up_id : Nat) (mp cp cs : List Nat) (pb bits : Nat) :
    ((self.check_target mrfp hh m bt tid up_id mp cp cs pb bits).all
      fun p => decide (p.snd = self)) = true := by
  cases m with
  | Standard s g => rfl
  | Extended s =>
    cases hch : alistGet s.channel_id self.extended_channels with
    | none =>
      rw [check_target_no_channel self mrfp hh s bt tid up_id mp cp cs pb bits hch]
      simp
    | some channel =>
      rw [check_target_extended_eq self mrfp hh s bt tid up_id mp cp cs pb bits
        channel hch]
      cases hm : mrfp cp cs (channel.extranoncePrefix ++ s.extranonce) mp with
      | none => simp
      | some root =>
        dsimp only
        split_ifs <;> simp

/-- C4: opening an extended channel with min_extranonce_size strictly larger than
the range2 length returns exactly one OpenMiningChannelError carrying the
unsupported-extranonce-size code and the request id, and leaves the whole factory
state (ids, extended_channels, channel_to_group_id and everything else) unchanged. -/
theorem new_extended_channel_extranonce_too_large (self : ChannelFactory)
    (request_id : Nat) (target_res : Except Error Nat) (min_extranonce_size : Nat)
    (h : self.extranonces.get_range2_len < min_extranonce_size) :
    self.new_extended_channel request_id target_res min_extranonce_size =
      (.ok [Mining.OpenMiningChannelError
              (OpenMiningChannelError.unsupported_extranonce_size request_id)], self) := by
  unfold ChannelFactory.new_extended_channel
  rw [if_neg (by omega)]

/-- Witness for C4 at a concrete factory whose range2 length is 2. -/
theorem new_extended_channel_extranonce_too_large_witness :
    cfA.new_extended_channel 5 (.ok 77) 9 =
      (.ok [Mining.OpenMiningChannelError
              (OpenMiningChannelError.unsupported_extranonce_size 5)], cfA) :=
  new_extended_channel_extranonce_too_large cfA 5 (.ok 77) 9 (by decide)

/-- C2 (amended): after on_new_prev_hash the future-jobs queue is always empty and
the staged prev-hash is recorded; when the queue was nonempty, last_valid_job is
either cleared or holds a job whose job_id matches the staged one, stamped with
the current time via set_no_future; when the queue was empty, last_valid_job is
simply left unchanged (it may still hold a job with a different job_id). -/
theorem on_new_prev_hash_drains_future_jobs (self : ChannelFactory) (m : StagedPhash)
    (now : Nat) :
    (self.on_new_prev_hash m now).future_jobs = [] ∧
    (self.on_new_prev_hash m now).last_prev_hash = some (m, []) ∧
    (self.future_jobs = [] →
      (self.on_new_prev_hash m now).last_valid_job = self.last_valid_job) ∧
    (self.future_jobs ≠ [] →
      (self.on_new_prev_hash m now).last_valid_job = none ∨
      ∃ jp, (self.on_new_prev_hash m now).last_valid_job = some jp ∧
        jp.fst.job_id = m.job_id ∧ jp.fst.min_ntime = some now) := by
  refine ⟨rfl, rfl, ?_, ?_⟩
  · intro h
    simp [ChannelFactory.on_new_prev_hash, h, on_new_prev_hash_loop]
  · intro h
    have hrev : self.future_jobs.reverse ≠ [] := by
      simpa using h
    rcases on_new_prev_hash_loop_ne_nil m.job_id now self.future_jobs.reverse
        self.last_valid_job hrev with hnone | ⟨j, tl, heq, hid⟩
    · left
      simp [ChannelFactory.on_new_prev_hash, hnone]
    · right
      refine ⟨(j.set_no_future now, tl), ?_, ?_, rfl⟩
      · simp [ChannelFactory.on_new_prev_hash, heq]
      · simpa [NewExtendedMiningJob.set_no_future] using hid

/-- Counterexample for C2 as stated: with an empty future-jobs queue the stored
valid job survives on_new_prev_hash unchanged, holding job id 1 while the staged
prev-hash names job id 2, so last_valid_job neither matches nor is cleared. -/
theorem on_new_prev_hash_stale_job_counterexample :
    (cfEmptyFJ.on_new_prev_hash { job_id := 2, prev_hash := 5, min_ntime := 6, nbits := 7 }
        100).future_jobs = [] ∧
    (cfEmptyFJ.on_new_prev_hash { job_id := 2, prev_hash := 5, min_ntime := 6, nbits := 7 }
        100).last_valid_job = some (jobA, []) ∧
    jobA.job_id = 1 := by decide

/-- Witness for C2 at a concrete factory: the queue empties, the prev-hash is
recorded, and with an empty queue the valid-job slot is untouched. -/
theorem on_new_prev_hash_drains_future_jobs_witness :
    (cfEmptyFJ.on_new_prev_hash phA 100).future_jobs = [] ∧
    (cfEmptyFJ.on_new_prev_hash phA 100).last_valid_job = cfEmptyFJ.last_valid_job := by
  have h := on_new_prev_hash_drains_future_jobs cfEmptyFJ phA 100
  exact ⟨h.1, h.2.2.1 (by decide)⟩

/-- C6: for a pool-kind factory the upstream target used by check_target is zero,
so the SendSubmitShareUpstream classification is unreachable: no run of
check_target on such a factory returns it. -/
theorem pool_upstream_branch_unreachable :
    ExtendedChannelKind.Pool.upstream_target_value = 0 ∧
    ∀ (self : ChannelFactory)
      (mrfp : List Nat → List Nat → List Nat → List Nat → Option (List Nat))
      (hh : Header → Nat) (m : Share)
      (bt : Nat) (tid : Option Nat) (up_id : Nat) (mp cp cs : List Nat) (pb bits : Nat)
      (sh : Share) (t : Option Nat) (st : ChannelFactory),
      self.kind = .Pool →
      self.check_target mrfp hh m bt tid up_id mp cp cs pb bits ≠
        some (.ok (.SendSubmitShareUpstream sh t), st) := by
  refine ⟨rfl, ?_⟩
  intro self mrfp hh m bt tid up_id mp cp cs pb bits sh t st hk hcontra
  cases m with
  | Standard s g =>
    rw [check_target_standard_eq] at hcontra
    exact Option.noConfusion hcontra
  | Extended s =>
    cases hch : alistGet s.channel_id self.extended_channels with
    | none =>
      rw [check_target_no_channel self mrfp hh s bt tid up_id mp cp cs pb bits hch]
        at hcontra
      simp at hcontra
    | some channel =>
      rw [check_target_extended_eq self mrfp hh s bt tid up_id mp cp cs pb bits
        channel hch] at hcontra
      cases hm : mrfp cp cs (channel.extranoncePrefix ++ s.extranonce) mp with
      | none =>
        rw [hm] at hcontra
        simp at hcontra
      | some root =>
        rw [hm] at hcontra
        dsimp only at hcontra
        rw [hk] at hcontra
        split_ifs at hcontra with h1 h2 h3 <;> simp at hcontra
        exact h1 (le_trans (Nat.le_of_eq (Nat.le_zero.mp h2)) (Nat.zero_le bt))

/-- Witness for C6: the concrete pool factory never classifies the concrete share
as an upstream submission. -/
theorem pool_upstream_branch_unreachable_witness :
    cfA.check_target mrfpA hh50 (.Extended sA) 10 none 2 [3] [1] [2] 11 13 ≠
      some (.ok (.SendSubmitShareUpstream (.Extended sA) none), cfA) :=
  pool_upstream_branch_unreachable.2 cfA mrfpA hh50 (.Extended sA) 10 none 2 [3] [1] [2]
    11 13 (.Extended sA) none cfA rfl

/-- C1: every share accepted by check_target (its channel known, the coinbase
merkle-root reconstruction successful — only extended shares can reach this
point) is classified by descending strictness on the header hash: at or below the
bitcoin target it yields ShareMeetBitcoinTarget carrying the share, the
template id, the coinbase cb_prefix ++ full_extranonce ++ cb_suffix and the full
extranonce; else at or below the upstream target, SendSubmitShareUpstream; else
at or below the downstream target, ShareMeetDownstreamTarget; else
SendErrorDownstream with the difficulty-too-low code and the share channel and
sequence ids. The classification rank is monotone in the hash, so a larger hash
can only move the outcome along Bitcoin, Upstream, Downstream, Error. -/
theorem check_target_classification (self : ChannelFactory)
    (mrfp : List Nat → List Nat → List Nat → List Nat → Option (List Nat))
    (hh hh2 : Header → Nat) (s : SubmitSharesExtended)
    (bt : Nat) (tid : Option Nat) (up_id : Nat) (mp cp cs : List Nat) (pb bits : Nat)
    (channel : OpenExtendedMiningChannelSuccess) (root : List Nat)
    (hch : alistGet s.channel_id self.extended_channels = some channel)
    (hmr : mrfp cp cs (channel.extranoncePrefix ++ s.extranonce) mp = some root) :
    ∃ r, self.check_target mrfp hh (.Extended s) bt tid up_id mp cp cs pb bits =
        some (.ok r, self) ∧
      (hh (shareHeader s root pb bits) ≤ bt →
        r = .ShareMeetBitcoinTarget (strippedShare self s channel) tid
              (cp ++ (channel.extranoncePrefix ++ s.extranonce) ++ cs)
              (channel.extranoncePrefix ++ s.extranonce)) ∧
      (¬ hh (shareHeader s root pb bits) ≤ bt →
       hh (shareHeader s root pb bits) ≤ self.kind.upstream_target_value →
        r = .SendSubmitShareUpstream (strippedShare self s channel) tid) ∧
      (¬ hh (shareHeader s root pb bits) ≤ bt →
       ¬ hh (shareHeader s root pb bits) ≤ self.kind.upstream_target_value →
       hh (shareHeader s root pb bits) ≤ channel.target →
        r = .ShareMeetDownstreamTarget) ∧
      (¬ hh (shareHeader s root pb bits) ≤ bt →
       ¬ hh (shareHeader s root pb bits) ≤ self.kind.upstream_target_value →
       ¬ hh (shareHeader s root pb bits) ≤ channel.target →
        r = .SendErrorDownstream
              { channel_id := s.channel_id, sequence_number := s.sequence_number,
                error_code := SubmitSharesError.difficulty_too_low_error_code }) ∧
      r.classRank = targetRank (hh (shareHeader s root pb bits)) bt
        self.kind.upstream_target_value channel.target ∧
      (∀ r2, self.check_target mrfp hh2 (.Extended s) bt tid up_id mp cp cs pb bits =
           some (.ok r2, self) →
        hh (shareHeader s root pb bits) ≤ hh2 (shareHeader s root pb bits) →
        r.classRank ≤ r2.classRank) := by
  have key : ∀ hf : Header → Nat,
      self.check_target mrfp hf (.Extended s) bt tid up_id mp cp cs pb bits =
        some (.ok
          (if hf (shareHeader s root pb bits) ≤ bt then
            OnNewShare.ShareMeetBitcoinTarget (strippedShare self s channel) tid
              (cp ++ (channel.extranoncePrefix ++ s.extranonce) ++ cs)
              (channel.extranoncePrefix ++ s.extranonce)
          else if hf (shareHeader s root pb bits) ≤ self.kind.upstream_target_value then
            OnNewShare.SendSubmitShareUpstream (strippedShare self s channel) tid
          else if hf (shareHeader s root pb bits) ≤ channel.target then
            OnNewShare.ShareMeetDownstreamTarget
          else
            OnNewShare.SendErrorDownstream
              { channel_id := s.channel_id, sequence_number := s.sequence_number,
                error_code := SubmitSharesError.difficulty_too_low_error_code }), self) := by
    intro hf
    rw [check_target_extended_eq self mrfp hf s bt tid up_id mp cp cs pb bits channel hch,
      hmr]
    dsimp only
    split_ifs <;> rfl
  have hrank : ∀ hf : Header → Nat,
      (if hf (shareHeader s root pb bits) ≤ bt then
        OnNewShare.ShareMeetBitcoinTarget (strippedShare self s channel) tid
          (cp ++ (channel.extranoncePrefix ++ s.extranonce) ++ cs)
          (channel.extranoncePrefix ++ s.extranonce)
      else if hf (shareHeader s root pb bits) ≤ self.kind.upstream_target_value then
        OnNewShare.SendSubmitShareUpstream (strippedShare self s channel) tid
      else if hf (shareHeader s root pb bits) ≤ channel.target then
        OnNewShare.ShareMeetDownstreamTarget
      else
        OnNewShare.SendErrorDownstream
          { channel_id := s.channel_id, sequence_number := s.sequence_number,
            error_code := SubmitSharesError.difficulty_too_low_error_code }).classRank =
      targetRank (hf (shareHeader s root pb bits)) bt self.kind.upstream_target_value
        channel.target := by
    intro hf
    unfold targetRank
    split_ifs <;> rfl
  refine ⟨_, key hh, ?_, ?_, ?_, ?_, hrank hh, ?_⟩
  · intro h1
    rw [if_pos h1]
  · intro h1 h2
    rw [if_neg h1, if_pos h2]
  · intro h1 h2 h3
    rw [if_neg h1, if_neg h2, if_pos h3]
  · intro h1 h2 h3
    rw [if_neg h1, if_neg h2, if_neg h3]
  · intro r2 hr2 hle
    rw [key hh2] at hr2
    have he := Except.ok.inj (congrArg Prod.fst (Option.some.inj hr2))
    rw [← he, hrank hh, hrank hh2]
    unfold targetRank
    split_ifs <;> omega

/-- Witness for C1: on the concrete proxy factory the hash 50 misses the bitcoin
target 10 but meets the upstream target 60, so the share is classified for
upstream submission with its range0 prefix stripped. -/
theorem check_target_classification_witness :
    cfProxy.check_target mrfpA hh50 (.Extended sA) 10 none 2 [3] [1] [2] 11 13 =
      some (.ok (.SendSubmitShareUpstream (.Extended { sA with extranonce := [8] }) none),
        cfProxy) := by
  obtain ⟨r, heq, hbt, hup, hdown, herr, hrank, hmono⟩ :=
    check_target_classification cfProxy mrfpA hh50 hh50 sA 10 none 2 [3] [1] [2] 11 13
      chanA [5] rfl rfl
  rw [hup (by decide) (by decide)] at heq
  exact heq

/-- Computation rule: a future job is queued and the fan-out returned. -/
theorem on_new_extended_mining_job_future (self : ChannelFactory)
    (m : NewExtendedMiningJob) (hf : m.is_future = true) :
    self.on_new_extended_mining_job m =
      (.ok (self.prepare_jobs_for_downstream_on_new_extended m),
       { self with future_jobs := self.future_jobs ++ [(m, [])] }) := by
  simp [ChannelFactory.on_new_extended_mining_job, hf]

/-- Computation rule: a non-future job with a prev-hash present replaces the valid
job and the fan-out is returned. -/
theorem on_new_extended_mining_job_nonfuture_some (self : ChannelFactory)
    (m : NewExtendedMiningJob) (php : StagedPhash × List Nat)
    (hf : m.is_future = false) (hl : self.last_prev_hash = some php) :
    self.on_new_extended_mining_job m =
      (.ok (self.prepare_jobs_for_downstream_on_new_extended m),
       { self with last_valid_job := some (m, []) }) := by
  simp [ChannelFactory.on_new_extended_mining_job, hf, hl]

/-- Computation rule: a non-future job without a prev-hash fails. -/
theorem on_new_extended_mining_job_nonfuture_none (self : ChannelFactory)
    (m : NewExtendedMiningJob) (hf : m.is_future = false)
    (hl : self.last_prev_hash = none) :
    self.on_new_extended_mining_job m =
      (.error .JobIsNotFutureButPrevHashNotPresent, self) := by
  simp [ChannelFactory.on_new_extended_mining_job, hf, hl]

/-- C5: on_new_extended_mining_job fails with JobIsNotFutureButPrevHashNotPresent
exactly when the job is non-future and no prev-hash has been observed; in every
other case it succeeds, returning a map that sends every live channel id to the
job rewritten with that channel id; a future job is appended to future_jobs, and
a non-future job with a prev-hash present replaces last_valid_job. -/
theorem on_new_extended_mining_job_spec (self : ChannelFactory)
    (m : NewExtendedMiningJob) :
    (self.on_new_extended_mining_job m =
        (.error .JobIsNotFutureButPrevHashNotPresent, self) ↔
      (m.is_future = false ∧ self.last_prev_hash = none)) ∧
    (m.is_future = true →
      self.on_new_extended_mining_job m =
        (.ok (self.prepare_jobs_for_downstream_on_new_extended m),
         { self with future_jobs := self.future_jobs ++ [(m, [])] })) ∧
    (m.is_future = false → ∀ php, self.last_prev_hash = some php →
      self.on_new_extended_mining_job m =
        (.ok (self.prepare_jobs_for_downstream_on_new_extended m),
         { self with last_valid_job := some (m, []) })) ∧
    (∀ id, id ∈ self.extended_channels.map Prod.fst →
      alistGet id (self.prepare_jobs_for_downstream_on_new_extended m) =
        some (Mining.NewExtendedMiningJob { m with channel_id := id })) := by
  refine ⟨⟨?_, ?_⟩, ?_, ?_, ?_⟩
  · intro h
    cases hf : m.is_future with
    | true =>
      rw [on_new_extended_mining_job_future self m hf] at h
      simp at h
    | false =>
      cases hl : self.last_prev_hash with
      | none => exact ⟨rfl, rfl⟩
      | some php =>
        rw [on_new_extended_mining_job_nonfuture_some self m php hf hl] at h
        simp at h
  · rintro ⟨hf, hl⟩
    exact on_new_extended_mining_job_nonfuture_none self m hf hl
  · intro hf
    exact on_new_extended_mining_job_future self m hf
  · intro hf php hl
    exact on_new_extended_mining_job_nonfuture_some self m php hf hl
  · intro id hid
    unfold ChannelFactory.prepare_jobs_for_downstream_on_new_extended
    rw [fanout_get]
    simp [hid]

/-- Witness for C5: the concrete factory accepts the concrete future job, queues
it, and the fan-out maps channel 1 to the job readdressed to channel 1. -/
theorem on_new_extended_mining_job_spec_witness :
    cfA.on_new_extended_mining_job jobF =
      (.ok (cfA.prepare_jobs_for_downstream_on_new_extended jobF),
       { cfA with future_jobs := cfA.future_jobs ++ [(jobF, [])] }) ∧
    alistGet 1 (cfA.prepare_jobs_for_downstream_on_new_extended jobF) =
      some (Mining.NewExtendedMiningJob { jobF with channel_id := 1 }) := by
  have h := on_new_extended_mining_job_spec cfA jobF
  exact ⟨h.2.1 (by decide), h.2.2.2 1 (by decide)⟩

/-- C3 (amended): a successful channel open returns, in order, the
OpenExtendedMiningChannelSuccess for the newly allocated channel id; then, if a
valid job is stored, that job rewritten with future = true but keeping its stored
channel_id (it is not readdressed to the new channel), followed, if a prev-hash is
stored, by a SetNewPrevHash addressed to the new channel and carrying that job id;
if only a prev-hash is stored, its SetNewPrevHash; then every buffered future job
in queue order. The batch contains exactly one SetNewPrevHash iff a prev-hash is
stored. -/
theorem new_extended_channel_success_batch (self : ChannelFactory)
    (request_id t min_extranonce_size : Nat)
    (hmin : min_extranonce_size ≤ self.extranonces.get_range2_len) :
    (self.new_extended_channel request_id (.ok t) min_extranonce_size).fst =
      .ok (Mining.OpenExtendedMiningChannelSuccess
             { request_id := request_id, channel_id := self.ids, target := t,
               extranonce_size := self.extranonces.get_range2_len,
               extranoncePrefix :=
                 (self.extranonces.next_prefix_extended
                   self.extranonces.get_range2_len).fst } ::
           ((match self.last_valid_job, self.last_prev_hash with
             | some jp, some php =>
               [Mining.NewExtendedMiningJob jp.fst.set_future,
                Mining.SetNewPrevHash
                  { channel_id := self.ids, job_id := jp.fst.job_id,
                    prev_hash := php.fst.prev_hash, min_ntime := php.fst.min_ntime,
                    nbits := php.fst.nbits }]
             | some jp, none => [Mining.NewExtendedMiningJob jp.fst.set_future]
             | none, some php =>
               [Mining.SetNewPrevHash (php.fst.into_set_p_hash self.ids none)]
             | none, none => []) ++
            self.future_jobs.map fun jp => Mining.NewExtendedMiningJob jp.fst)) ∧
    (self.new_extended_channel request_id (.ok t) min_extranonce_size).fst.map
        (fun msgs => msgs.countP Mining.isSetNewPrevHash) =
      .ok (if self.last_prev_hash.isSome then 1 else 0) := by
  constructor
  · cases hlv : self.last_valid_job <;> cases hlp : self.last_prev_hash <;>
      simp [ChannelFactory.new_extended_channel, hmin, hlv, hlp,
        StagedPhash.into_set_p_hash, NewExtendedMiningJob.set_future]
  · cases hlv : self.last_valid_job <;> cases hlp : self.last_prev_hash <;>
      simp [ChannelFactory.new_extended_channel, hmin, hlv, hlp, Except.map,
        List.countP_cons, List.countP_append, List.countP_map, Function.comp,
        Mining.isSetNewPrevHash]

/-- Counterexample for C3 as stated: on the concrete factory the second message of
the batch is the stored valid job reissued as future, but it still carries its
stored channel id 9, not the newly allocated channel id 3. -/
theorem new_extended_channel_job_not_readdressed_counterexample :
    ((cfA.new_extended_channel 5 (.ok 77) 1).fst.toOption.bind fun msgs => msgs.get? 1) =
      some (Mining.NewExtendedMiningJob { jobA with min_ntime := none }) ∧
    ({ jobA with min_ntime := none } : NewExtendedMiningJob).channel_id = 9 ∧
    cfA.ids = 3 ∧
    ({ jobA with min_ntime := none } : NewExtendedMiningJob).channel_id ≠ cfA.ids := by
  decide

/-- Witness for C3 at the concrete factory holding a valid job, a prev-hash and
one buffered future job. -/
theorem new_extended_channel_success_batch_witness :
    (cfA.new_extended_channel 5 (.ok 77) 1).fst =
      .ok [Mining.OpenExtendedMiningChannelSuccess
             { request_id := 5, channel_id := 3, target := 77, extranonce_size := 2,
               extranoncePrefix := [0] },
           Mining.NewExtendedMiningJob { jobA with min_ntime := none },
           Mining.SetNewPrevHash
             { channel_id := 3, job_id := 1, prev_hash := 11, min_ntime := 12,
               nbits := 13 },
           Mining.NewExtendedMiningJob jobF] := by
  have h := (new_extended_channel_success_batch cfA 5 77 1 (by decide)).1
  rw [h]
  rfl

/-- Fixture: a job creator knowing template 21 for job 1, with bitcoin target 10. -/
def jcA : JobsCreators :=
  { get_template_id_from_job := fun j => if j = 1 then some 21 else none,
    last_target := 10 }

/-- Fixture: a custom mining job negotiated on channel 1. -/
def cjA : SetCustomMiningJob :=
  { channel_id := 1, request_id := 2, token := 3, version := 4, prev_hash := 44,
    min_ntime := 45, nbits := 46, coinbase_tx_version := 2, coinbasePrefix := [9],
    coinbase_tx_input_n_sequence := 0, coinbase_tx_value_remaining := 0,
    coinbase_tx_outputs := [], coinbase_tx_locktime := 0, merkle_path := [8],
    future_job := false }

/-- Fixture: a concrete extended-job-from-custom-job synthesizer. -/
def ejfcjA (cj : SetCustomMiningJob) (len : Nat) : Option NewExtendedMiningJob :=
  some { channel_id := 0, job_id := 0, min_ntime := some cj.min_ntime,
         version := cj.version, version_rolling_allowed := false,
         merkle_path := cj.merkle_path, coinbaseTxPrefix := cj.coinbasePrefix,
         coinbaseTxSuffix := natToBytes 1 len }

/-- Fixture: the extended job ejfcjA synthesizes from cjA at extranonce length 3. -/
def ejA : NewExtendedMiningJob :=
  { channel_id := 0, job_id := 0, min_ntime := some 45, version := 4,
    version_rolling_allowed := false, merkle_path := [8],
    coinbaseTxPrefix := [9], coinbaseTxSuffix := [3] }

/-- Fixture: a pool factory whose channel 1 negotiated the custom job cjA. -/
def poolA : PoolChannelFactory :=
  { inner := cfA, job_creator := jcA, pool_coinbase_outputs := [],
    negotiated_jobs := [(1, cjA)] }

/-- Fixture: a pool factory with a gated channel but no stored valid job. -/
def poolNoJob : PoolChannelFactory :=
  { inner := { cfA with last_valid_job := none }, job_creator := jcA,
    pool_coinbase_outputs := [], negotiated_jobs := [] }

/-- Fixture: a pure proxy factory (no job creator). -/
def proxyA : ProxyExtendedChannelFactory :=
  { inner := cfProxy, job_creator := none, pool_coinbase_outputs := none,
    extended_channel_id := 77 }

/-- Fixture: a standard share on channel 1. -/
def ssA : SubmitSharesStandard :=
  { channel_id := 1, sequence_number := 9, job_id := 3, nonce := 4, ntime := 5,
    version := 6 }

/-- C7: an extended share on a pool channel holding a negotiated custom job is
validated against that custom job: the merkle path, prev-blockhash and nbits are
taken from the stored SetCustomMiningJob, the coinbase halves from
extended_job_from_custom_job applied to it at the factory extranonce length, the
bitcoin target is the job creator last_target, and the template id passed to
check_target is none. -/
theorem pool_negotiated_job_validation (self : PoolChannelFactory)
    (ejfcj : SetCustomMiningJob → Nat → Option NewExtendedMiningJob)
    (mrfp : List Nat → List Nat → List Nat → List Nat → Option (List Nat))
    (hh : Header → Nat) (m : SubmitSharesExtended)
    (cj : SetCustomMiningJob) (ej : NewExtendedMiningJob)
    (hneg : alistGet m.channel_id self.negotiated_jobs = some cj)
    (hext : ejfcj cj (self.inner.extranonces.get_len % 256) = some ej) :
    self.on_submit_shares_extended ejfcj mrfp hh m =
      (self.inner.check_target mrfp hh (.Extended m) self.job_creator.last_target
          none 0 cj.merkle_path ej.coinbaseTxPrefix ej.coinbaseTxSuffix
          (u256_to_block_hash cj.prev_hash) cj.nbits).map
        (fun p => (p.fst, { self with inner := p.snd })) := by
  unfold PoolChannelFactory.on_submit_shares_extended
  rw [hneg]
  dsimp only
  rw [hext]

/-- Witness for C7: the concrete pool factory routes the concrete share through
check_target with the custom-job data. -/
theorem pool_negotiated_job_validation_witness :
    poolA.on_submit_shares_extended ejfcjA mrfpA hh50 sA =
      (poolA.inner.check_target mrfpA hh50 (.Extended sA) poolA.job_creator.last_target
          none 0 cjA.merkle_path ejA.coinbaseTxPrefix ejA.coinbaseTxSuffix
          (u256_to_block_hash cjA.prev_hash) cjA.nbits).map
        (fun p => (p.fst, { poolA with inner := p.snd })) :=
  pool_negotiated_job_validation poolA ejfcjA mrfpA hh50 sA cjA ejA rfl rfl

/-- C10 (amended): check_target diverges on every standard share (the channel-info
resolution is unimplemented for the Standard variant), so for a channel that
passes the group-id gate neither PoolChannelFactory::on_submit_shares_standard nor
ProxyExtendedChannelFactory::on_submit_shares_standard ever returns an OnNewShare
classification: each either fails earlier with a missing-job/template/prev-hash
error or diverges in check_target. -/
theorem standard_share_validation_diverges :
    (∀ (self : ChannelFactory)
       (mrfp : List Nat → List Nat → List Nat → List Nat → Option (List Nat))
       (hh : Header → Nat) (s : SubmitSharesStandard) (g bt : Nat) (tid : Option Nat)
       (up_id : Nat) (mp cp cs : List Nat) (pb bits : Nat),
      self.check_target mrfp hh (.Standard s g) bt tid up_id mp cp cs pb bits = none) ∧
    (∀ (pool : PoolChannelFactory)
       (mrfp : List Nat → List Nat → List Nat → List Nat → Option (List Nat))
       (hh : Header → Nat) (m : SubmitSharesStandard) (g_id : Nat),
      alistGet m.channel_id pool.inner.channel_to_group_id = some g_id →
      ∀ (r : OnNewShare) (st : PoolChannelFactory),
        pool.on_submit_shares_standard mrfp hh m ≠ some (.ok r, st)) ∧
    (∀ (proxy : ProxyExtendedChannelFactory)
       (mrfp : List Nat → List Nat → List Nat → List Nat → Option (List Nat))
       (hh : Header → Nat) (m : SubmitSharesStandard) (g_id : Nat),
      alistGet m.channel_id proxy.inner.channel_to_group_id = some g_id →
      ∀ (r : OnNewShare) (st : ProxyExtendedChannelFactory),
        proxy.on_submit_shares_standard mrfp hh m ≠ some (.ok r, st)) := by
  refine ⟨?_, ?_, ?_⟩
  · intro self mrfp hh s g bt tid up_id mp cp cs pb bits
    exact check_target_standard_eq self mrfp hh s g bt tid up_id mp cp cs pb bits
  · intro pool mrfp hh m g_id hg r st hcontra
    unfold PoolChannelFactory.on_submit_shares_standard at hcontra
    rw [hg] at hcontra
    dsimp only at hcontra
    cases hlv : pool.inner.last_valid_job with
    | none => rw [hlv] at hcontra; simp at hcontra
    | some jp =>
      rw [hlv] at hcontra
      dsimp only at hcontra
      cases ht : pool.job_creator.get_template_id_from_job jp.fst.job_id with
      | none => rw [ht] at hcontra; simp at hcontra
      | some template_id =>
        rw [ht] at hcontra
        dsimp only at hcontra
        cases hph : pool.inner.last_prev_hash_ with
        | none => rw [hph] at hcontra; simp at hcontra
        | some pb =>
          rw [hph] at hcontra
          dsimp only at hcontra
          cases hph2 : pool.inner.last_prev_hash with
          | none => rw [hph2] at hcontra; simp at hcontra
          | some php =>
            rw [hph2] at hcontra
            dsimp only at hcontra
            rw [check_target_standard_eq] at hcontra
            simp at hcontra
  · intro proxy mrfp hh m g_id hg r st hcontra
    unfold ProxyExtendedChannelFactory.on_submit_shares_standard at hcontra
    cases hlv : proxy.inner.last_valid_job with
    | none => rw [hlv] at hcontra; simp at hcontra
    | some jp =>
      rw [hlv] at hcontra
      dsimp only at hcontra
      rw [hg] at hcontra
      dsimp only at hcontra
      cases hjc : proxy.job_creator with
      | none =>
        rw [hjc] at hcontra
        dsimp only at hcontra
        cases hph : proxy.inner.last_prev_hash_ with
        | none => rw [hph] at hcontra; simp at hcontra
        | some pb =>
          rw [hph] at hcontra
          dsimp only at hcontra
          cases hph2 : proxy.inner.last_prev_hash with
          | none => rw [hph2] at hcontra; simp at hcontra
          | some php =>
            rw [hph2] at hcontra
            dsimp only at hcontra
            rw [check_target_standard_eq] at hcontra
            simp at hcontra
      | some job_creator =>
        rw [hjc] at hcontra
        dsimp only at hcontra
        cases ht : job_creator.get_template_id_from_job jp.fst.job_id with
        | none => rw [ht] at hcontra; simp at hcontra
        | some template_id =>
          rw [ht] at hcontra
          dsimp only at hcontra
          cases hph : proxy.inner.last_prev_hash_ with
          | none => rw [hph] at hcontra; simp at hcontra
          | some pb =>
            rw [hph] at hcontra
            dsimp only at hcontra
            cases hph2 : proxy.inner.last_prev_hash with
            | none => rw [hph2] at hcontra; simp at hcontra
            | some php =>
              rw [hph2] at hcontra
              dsimp only at hcontra
              rw [check_target_standard_eq] at hcontra
              simp at hcontra

/-- Counterexample for C10 as stated: on a pool whose channel 1 passes the
group-id gate but whose valid-job slot is empty, a standard share produces the
error value ShareDoNotMatchAnyJob instead of diverging. -/
theorem standard_share_early_error_counterexample :
    poolNoJob.on_submit_shares_standard mrfpA hh50 ssA =
      some (.error .ShareDoNotMatchAnyJob, poolNoJob) := rfl

/-- Witness for C10: the concrete gated pool never returns a classification for a
standard share. -/
theorem standard_share_validation_diverges_witness :
    poolA.on_submit_shares_standard mrfpA hh50 ssA ≠
      some (.ok .ShareMeetDownstreamTarget, poolA) :=
  standard_share_validation_diverges.2.1 poolA mrfpA hh50 ssA 0 rfl
    .ShareMeetDownstreamTarget poolA

end Sv2
